import Mathlib

/-!
# Verification of the cli-sudoku board model and interaction logic

Shallow embedding of `src/sudoku.py` (class `Sudoku`): the game state holds the
terminal dimensions, the immutable initial board, the mutable player board and
the cursor position.  Boards are modelled as total functions `Nat → Nat → Nat`
(the Python 9×9 nested lists, read at indices that the guards keep inside
`[0,8]`); screen coordinates are integers.  Python's `//` and `%` on the
non-negative values reached by the guards agree with `Int`'s `/` and `%` (both
are floor/Euclidean division for a positive divisor).  Methods that in Python
could raise (indexing a list with the `None` sentinel returned by `yx_to_ij`,
or the `assert` inside `is_completed`) are embedded returning `Option`, with
`none` standing for the raised exception.
-/

/-- The state of a running game: terminal size, the two 9×9 boards and the
cursor.  `initial_board` is the snapshot fetched at startup; `board` is the
player board, `deepcopy`'d from it; `cursor` is the screen position the curses
cursor sits at. -/
structure Sudoku where
  height : Int
  width : Int
  initial_board : Nat → Nat → Nat
  board : Nat → Nat → Nat
  cursor : Int × Int

namespace Sudoku

/-- `is_safe_pos(y, x)`: `0 <= y <= self.height and 0 <= x <= self.width - 2`. -/
def is_safe_pos (s : Sudoku) (y x : Int) : Bool :=
  decide (0 ≤ y ∧ y ≤ s.height ∧ 0 ≤ x ∧ x ≤ s.width - 2)

/-- `is_on_grid(y, x)`: safe bounds, then board bounds `0 <= y <= 12`,
`0 <= x <= 12`, then not on a wall: `x % 4 != 0 and y % 4 != 0`. -/
def is_on_grid (s : Sudoku) (y x : Int) : Bool :=
  if ¬ s.is_safe_pos y x then false
  else if ¬ (0 ≤ y ∧ y ≤ 12 ∧ 0 ≤ x ∧ x ≤ 12) then false
  else decide (x % 4 ≠ 0 ∧ y % 4 ≠ 0)

/-- `yx_to_ij(y, x)`: `None, None` when off grid, else
`(y-1)-(y//4), (x-1)-(x//4)`. -/
def yx_to_ij (s : Sudoku) (y x : Int) : Option (Int × Int) :=
  if ¬ s.is_on_grid y x then none
  else some ((y - 1) - (y / 4), (x - 1) - (x / 4))

/-- `is_on_initial(y, x)`: `self.initial_board[i][j] != 0` where
`i, j = self.yx_to_ij(y, x)`.  When `yx_to_ij` returns the `None` sentinel,
Python would raise a `TypeError` on the indexing: embedded as `none`. -/
def is_on_initial (s : Sudoku) (y x : Int) : Option Bool :=
  match s.yx_to_ij y x with
  | none => none
  | some (i, j) => some (decide (s.initial_board i.toNat j.toNat ≠ 0))

/-- Functional update of one cell of a board. -/
def setCell (b : Nat → Nat → Nat) (i j v : Nat) : Nat → Nat → Nat :=
  fun a c => if a = i ∧ c = j then v else b a c

/-- `try_move(y, x, dir)`: move to `(y, x)` if on grid, otherwise skip one
further unit in the direction named by the key string, otherwise stay. -/
def try_move (s : Sudoku) (y x : Int) (dir : String) : Sudoku :=
  if s.is_on_grid y x then { s with cursor := (y, x) }
  else if dir = "KEY_UP" ∧ s.is_on_grid (y - 1) x then { s with cursor := (y - 1, x) }
  else if dir = "KEY_DOWN" ∧ s.is_on_grid (y + 1) x then { s with cursor := (y + 1, x) }
  else if dir = "KEY_LEFT" ∧ s.is_on_grid y (x - 1) then { s with cursor := (y, x - 1) }
  else if dir = "KEY_RIGHT" ∧ s.is_on_grid y (x + 1) then { s with cursor := (y, x + 1) }
  else s

/-- `try_place(y, x, num)`: guarded by
`self.is_on_grid(y, x) and not self.is_on_initial(y, x)` (short-circuit: the
second test only runs when the first holds).  Builds `this_row` (the row list
`self.board[i]`), `this_col` and `this_square`, rejects on membership of
`numint`, else writes the cell and moves the cursor back to `(y, x)`.
`num` is the already-parsed value `int(num)` of the digit string. -/
def try_place (s : Sudoku) (y x : Int) (num : Nat) : Option Sudoku :=
  if s.is_on_grid y x then
    match s.is_on_initial y x with
    | none => none
    | some onInit =>
      if onInit then some s
      else
        match s.yx_to_ij y x with
        | none => none
        | some (i, j) =>
          let iN := i.toNat
          let jN := j.toNat
          let this_row := (List.range 9).map (fun l => s.board iN l)
          let this_col := (List.range 9).map (fun k => s.board k jN)
          let this_square :=
            ((List.range 3).map (fun a => iN / 3 * 3 + a)).flatMap
              (fun k => (List.range 3).map (fun b => s.board k (jN / 3 * 3 + b)))
          if num ∈ this_row ∨ num ∈ this_col ∨ num ∈ this_square then some s
          else some { s with board := setCell s.board iN jN num, cursor := (y, x) }
  else some s

/-- `try_del(y, x)`: same guard as `try_place`; clears the cell to 0 and moves
the cursor back. -/
def try_del (s : Sudoku) (y x : Int) : Option Sudoku :=
  if s.is_on_grid y x then
    match s.is_on_initial y x with
    | none => none
    | some onInit =>
      if onInit then some s
      else
        match s.yx_to_ij y x with
        | none => none
        | some (i, j) =>
          some { s with board := setCell s.board i.toNat j.toNat 0, cursor := (y, x) }
  else some s

/-- `digits = list(range(1, 10))` in `is_completed`. -/
def digits : List Nat := [1, 2, 3, 4, 5, 6, 7, 8, 9]

/-- The row-major traversal order of the first pass of `is_completed`
(`for i in range(9): for j in range(9)`). -/
def cellList : List (Nat × Nat) :=
  (List.range 9).flatMap (fun i => (List.range 9).map (fun j => (i, j)))

/-- First pass of `is_completed`: return `False` at the first zero cell,
`assert self.board[i][j] in digits` otherwise (`none` = AssertionError). -/
def scanCells (b : Nat → Nat → Nat) : List (Nat × Nat) → Option Bool
  | [] => some true
  | (i, j) :: rest =>
    if b i j = 0 then some false
    else if b i j ∈ digits then scanCells b rest
    else none

/-- Deep-check loop over rows and columns: for each `i`, the sets
`{board[i][j]}` and `{board[j][i]}` must have 9 elements summing to 45. -/
def rowColOk (b : Nat → Nat → Nat) : Bool :=
  (List.range 9).all fun i =>
    let row := ((List.range 9).map (fun j => b i j)).toFinset
    let col := ((List.range 9).map (fun j => b j i)).toFinset
    decide (row.card = 9) && decide (col.card = 9) &&
      decide (row.sum id = 45) && decide (col.sum id = 45)

/-- Deep-check loop over the nine aligned 3×3 squares
(`for k in range(0, 9, 3): for l in range(0, 9, 3)`). -/
def squaresOk (b : Nat → Nat → Nat) : Bool :=
  ([0, 3, 6] : List Nat).all fun k =>
    ([0, 3, 6] : List Nat).all fun l =>
      let square :=
        (((List.range 3).map (fun a => k + a)).flatMap
          (fun i => (List.range 3).map (fun c => b i (l + c)))).toFinset
      decide (square.card = 9) && decide (square.sum id = 45)

/-- `is_completed(deep_check)`: first pass over all cells, then, when
`deep_check`, the row/column and square set checks.  `none` models the
`assert` raising. -/
def is_completed (s : Sudoku) (deep_check : Bool := true) : Option Bool :=
  match scanCells s.board cellList with
  | none => none
  | some false => some false
  | some true =>
    if deep_check then some (rowColOk s.board && squaresOk s.board)
    else some true

/-- One player input event handled by the `play` loop dispatch: an arrow key,
a digit, or backspace, at the screen position the loop read back. -/
inductive Action where
  | move (y x : Int) (dir : String)
  | place (y x : Int) (num : Nat)
  | del (y x : Int)

/-- Apply one action to the state (the `Option`-embedded mutators cannot in
fact return `none`, proved below; `getD` keeps the state total). -/
def applyAction (s : Sudoku) (a : Action) : Sudoku :=
  match a with
  | .move y x dir => s.try_move y x dir
  | .place y x num => (s.try_place y x num).getD s
  | .del y x => (s.try_del y x).getD s

/-- Run a sequence of input events. -/
def run (s : Sudoku) (acts : List Action) : Sudoku :=
  acts.foldl applyAction s

/-- Game start: `self.board = deepcopy(self.initial_board)` and the cursor
moved to `(1, 1)` at the top of `play`. -/
def startState (ib : Nat → Nat → Nat) (h w : Int) : Sudoku :=
  { height := h, width := w, initial_board := ib, board := ib, cursor := (1, 1) }

/-- The rejection condition of `try_place`, verbatim:
`numint in this_row or numint in this_col or numint in this_square`. -/
def conflict (b : Nat → Nat → Nat) (iN jN num : Nat) : Prop :=
  num ∈ (List.range 9).map (fun l => b iN l) ∨
  num ∈ (List.range 9).map (fun k => b k jN) ∨
  num ∈ ((List.range 3).map (fun a => iN / 3 * 3 + a)).flatMap
          (fun k => (List.range 3).map (fun c => b k (jN / 3 * 3 + c)))

instance (b : Nat → Nat → Nat) (iN jN num : Nat) : Decidable (conflict b iN jN num) := by
  unfold conflict; infer_instance

/-- The set of values of row `i` of a board (spec-level view). -/
def rowFinset (b : Nat → Nat → Nat) (i : Nat) : Finset Nat :=
  ((List.range 9).map (fun j => b i j)).toFinset

/-- The set of values of column `j` of a board (spec-level view). -/
def colFinset (b : Nat → Nat → Nat) (j : Nat) : Finset Nat :=
  ((List.range 9).map (fun i => b i j)).toFinset

/-- The set of values of the aligned 3×3 box with top-left corner `(k, l)`
(spec-level view; the aligned boxes have `k, l ∈ {0, 3, 6}`). -/
def boxFinset (b : Nat → Nat → Nat) (k l : Nat) : Finset Nat :=
  (((List.range 3).map (fun a => k + a)).flatMap
    (fun i => (List.range 3).map (fun c => b i (l + c)))).toFinset

/-- A 9×9 grid from a list of rows (concrete boards for instantiations). -/
def gridOf (rows : List (List Nat)) : Nat → Nat → Nat :=
  fun i j => (rows.getD i []).getD j 0

/-- A correctly solved grid. -/
def solvedGrid : Nat → Nat → Nat :=
  gridOf
    [[5, 3, 4, 6, 7, 8, 9, 1, 2],
     [6, 7, 2, 1, 9, 5, 3, 4, 8],
     [1, 9, 8, 3, 4, 2, 5, 6, 7],
     [8, 5, 9, 7, 6, 1, 4, 2, 3],
     [4, 2, 6, 8, 5, 3, 7, 9, 1],
     [7, 1, 3, 9, 2, 4, 8, 5, 6],
     [9, 6, 1, 5, 3, 7, 2, 8, 4],
     [2, 8, 7, 4, 1, 9, 6, 3, 5],
     [3, 4, 5, 2, 8, 6, 1, 7, 9]]

/-- A small initial board: a single given `5` at cell `(0, 0)`. -/
def sampleInit : Nat → Nat → Nat :=
  fun i j => if i = 0 ∧ j = 0 then 5 else 0

/-- A concrete game state over `sampleInit`, in a 20×40 terminal. -/
def sampleState : Sudoku :=
  startState sampleInit 20 40

/-- A concrete state whose player board is fully and correctly solved. -/
def solvedState : Sudoku :=
  { height := 20, width := 40, initial_board := sampleInit,
    board := solvedGrid, cursor := (1, 1) }

/-- A concrete mid-game state: the player has placed a `3` at cell `(0, 1)`. -/
def halfState : Sudoku :=
  { sampleState with board := setCell sampleInit 0 1 3 }

end Sudoku

namespace Sudoku

theorem is_on_grid_iff (s : Sudoku) (y x : Int) :
    s.is_on_grid y x = true ↔
      s.is_safe_pos y x = true ∧
        (0 ≤ y ∧ y ≤ 12) ∧ (0 ≤ x ∧ x ≤ 12) ∧ x % 4 ≠ 0 ∧ y % 4 ≠ 0 := by
  unfold is_on_grid
  by_cases h1 : s.is_safe_pos y x = true
  · by_cases h2 : 0 ≤ y ∧ y ≤ 12 ∧ 0 ≤ x ∧ x ≤ 12
    · simp [h1, h2]
      try tauto
    · simp [h1, h2]
      try tauto
  · simp [h1]

theorem on_grid_coord {s : Sudoku} {y x : Int} (h : s.is_on_grid y x = true) :
    1 ≤ y ∧ y ≤ 11 ∧ 1 ≤ x ∧ x ≤ 11 ∧ y % 4 ≠ 0 ∧ x % 4 ≠ 0 := by
  have := (is_on_grid_iff s y x).1 h
  omega

theorem yx_to_ij_on_grid {s : Sudoku} {y x : Int} (h : s.is_on_grid y x = true) :
    s.yx_to_ij y x = some ((y - 1) - (y / 4), (x - 1) - (x / 4)) := by
  simp [yx_to_ij, h]

theorem yx_to_ij_off_grid {s : Sudoku} {y x : Int} (h : s.is_on_grid y x = false) :
    s.yx_to_ij y x = none := by
  simp [yx_to_ij, h]

theorem ij_range {s : Sudoku} {y x : Int} (h : s.is_on_grid y x = true) :
    0 ≤ (y - 1) - (y / 4) ∧ (y - 1) - (y / 4) ≤ 8 ∧
      0 ≤ (x - 1) - (x / 4) ∧ (x - 1) - (x / 4) ≤ 8 := by
  have := on_grid_coord h
  omega

theorem is_on_initial_on_grid {s : Sudoku} {y x : Int} (h : s.is_on_grid y x = true) :
    s.is_on_initial y x =
      some (decide (s.initial_board ((y - 1) - (y / 4)).toNat ((x - 1) - (x / 4)).toNat ≠ 0)) := by
  rw [is_on_initial, yx_to_ij_on_grid h]

theorem setCell_same (b : Nat → Nat → Nat) (i j v : Nat) : setCell b i j v i j = v := by
  simp [setCell]

theorem setCell_ne (b : Nat → Nat → Nat) {i j : Nat} (v : Nat) {p q : Nat}
    (h : ¬(p = i ∧ q = j)) : setCell b i j v p q = b p q := by
  simp [setCell, h]

theorem try_place_off_grid {s : Sudoku} {y x : Int} (num : Nat)
    (h : s.is_on_grid y x = false) : s.try_place y x num = some s := by
  simp [try_place, h]

theorem try_place_on_grid {s : Sudoku} {y x : Int} (num : Nat)
    (h : s.is_on_grid y x = true) :
    s.try_place y x num =
      some
        (if s.initial_board ((y - 1) - (y / 4)).toNat ((x - 1) - (x / 4)).toNat ≠ 0 then s
         else if conflict s.board ((y - 1) - (y / 4)).toNat ((x - 1) - (x / 4)).toNat num then s
         else { s with
                 board := setCell s.board ((y - 1) - (y / 4)).toNat
                            ((x - 1) - (x / 4)).toNat num,
                 cursor := (y, x) }) := by
  rw [try_place]
  simp only [h, if_true]
  rw [is_on_initial_on_grid h, yx_to_ij_on_grid h]
  unfold conflict
  by_cases hinit :
      s.initial_board ((y - 1) - (y / 4)).toNat ((x - 1) - (x / 4)).toNat ≠ 0
  · simp [hinit]
  · have hd :
        decide (s.initial_board ((y - 1) - (y / 4)).toNat ((x - 1) - (x / 4)).toNat ≠ 0)
          = false := by simpa using hinit
    rw [if_neg hinit]
    simp only [hd, Bool.false_eq_true, if_false]
    split
    · rfl
    · rfl

theorem try_del_off_grid {s : Sudoku} {y x : Int} (h : s.is_on_grid y x = false) :
    s.try_del y x = some s := by
  simp [try_del, h]

theorem try_del_on_grid {s : Sudoku} {y x : Int} (h : s.is_on_grid y x = true) :
    s.try_del y x =
      some
        (if s.initial_board ((y - 1) - (y / 4)).toNat ((x - 1) - (x / 4)).toNat ≠ 0 then s
         else { s with
                 board := setCell s.board ((y - 1) - (y / 4)).toNat
                            ((x - 1) - (x / 4)).toNat 0,
                 cursor := (y, x) }) := by
  rw [try_del]
  simp only [h, if_true]
  rw [is_on_initial_on_grid h, yx_to_ij_on_grid h]
  by_cases hinit :
      s.initial_board ((y - 1) - (y / 4)).toNat ((x - 1) - (x / 4)).toNat ≠ 0
  · simp [hinit]
  · simp [hinit]

theorem try_place_total (s : Sudoku) (y x : Int) (num : Nat) :
    ∃ t, s.try_place y x num = some t := by
  cases hg : s.is_on_grid y x
  · exact ⟨s, try_place_off_grid num hg⟩
  · exact ⟨_, try_place_on_grid num hg⟩

theorem try_del_total (s : Sudoku) (y x : Int) :
    ∃ t, s.try_del y x = some t := by
  cases hg : s.is_on_grid y x
  · exact ⟨s, try_del_off_grid hg⟩
  · exact ⟨_, try_del_on_grid hg⟩

theorem conflict_iff (b : Nat → Nat → Nat) (iN jN num : Nat) :
    conflict b iN jN num ↔
      (∃ l < 9, b iN l = num) ∨ (∃ k < 9, b k jN = num) ∨
        (∃ a < 3, ∃ c < 3, b (iN / 3 * 3 + a) (jN / 3 * 3 + c) = num) := by
  unfold conflict
  simp only [List.mem_map, List.mem_flatMap, List.mem_range]
  constructor
  · rintro (⟨l, hl, rfl⟩ | ⟨k, hk, rfl⟩ | ⟨k, ⟨a, ha, rfl⟩, c, hc, rfl⟩)
    · exact Or.inl ⟨l, hl, rfl⟩
    · exact Or.inr (Or.inl ⟨k, hk, rfl⟩)
    · exact Or.inr (Or.inr ⟨a, ha, c, hc, rfl⟩)
  · rintro (⟨l, hl, rfl⟩ | ⟨k, hk, rfl⟩ | ⟨a, ha, c, hc, rfl⟩)
    · exact Or.inl ⟨l, hl, rfl⟩
    · exact Or.inr (Or.inl ⟨k, hk, rfl⟩)
    · exact Or.inr (Or.inr ⟨_, ⟨a, ha, rfl⟩, c, hc, rfl⟩)

theorem on_grid_of_yx_to_ij {s : Sudoku} {y x : Int} {p : Int × Int}
    (h : s.yx_to_ij y x = some p) : s.is_on_grid y x = true := by
  cases hb : s.is_on_grid y x
  · rw [yx_to_ij_off_grid hb] at h
    cases h
  · rfl

theorem mem_digits {v : Nat} : v ∈ digits ↔ 1 ≤ v ∧ v ≤ 9 := by
  simp only [digits, List.mem_cons, List.not_mem_nil, or_false]
  omega

theorem mem_cellList {p : Nat × Nat} : p ∈ cellList ↔ p.1 < 9 ∧ p.2 < 9 := by
  obtain ⟨i, j⟩ := p
  simp only [cellList, List.mem_flatMap, List.mem_map, List.mem_range, Prod.mk.injEq]
  constructor
  · rintro ⟨a, ha, b, hb, h1, h2⟩
    subst h1
    subst h2
    exact ⟨ha, hb⟩
  · rintro ⟨hi, hj⟩
    exact ⟨i, hi, j, hj, rfl, rfl⟩

theorem scanCells_ne_none {b : Nat → Nat → Nat} (L : List (Nat × Nat))
    (h : ∀ p ∈ L, b p.1 p.2 ≤ 9) : scanCells b L ≠ none := by
  induction L with
  | nil => simp [scanCells]
  | cons p rest ih =>
    obtain ⟨i, j⟩ := p
    rw [scanCells]
    by_cases h0 : b i j = 0
    · simp [h0]
    · have h9 : b i j ∈ digits :=
        mem_digits.2 ⟨by omega, h (i, j) (List.mem_cons_self _ _)⟩
      simp only [h0, if_false, h9, if_true]
      exact ih fun q hq => h q (List.mem_cons_of_mem _ hq)

theorem scanCells_eq_true_iff {b : Nat → Nat → Nat} (L : List (Nat × Nat)) :
    scanCells b L = some true ↔ ∀ p ∈ L, 1 ≤ b p.1 p.2 ∧ b p.1 p.2 ≤ 9 := by
  induction L with
  | nil => simp [scanCells]
  | cons p rest ih =>
    obtain ⟨i, j⟩ := p
    rw [scanCells]
    by_cases h0 : b i j = 0
    · rw [if_pos h0]
      constructor
      · intro hcontra
        cases hcontra
      · intro hall
        have h1 : 1 ≤ b i j := (hall (i, j) (List.mem_cons_self _ _)).1
        omega
    · rw [if_neg h0]
      by_cases h9 : b i j ∈ digits
      · rw [if_pos h9, ih]
        have hb := mem_digits.1 h9
        constructor
        · intro hrest p hp
          rcases List.mem_cons.1 hp with rfl | hp2
          · exact hb
          · exact hrest p hp2
        · intro hall p hp
          exact hall p (List.mem_cons_of_mem _ hp)
      · rw [if_neg h9]
        constructor
        · intro hcontra
          cases hcontra
        · intro hall
          exact absurd (mem_digits.2 (hall (i, j) (List.mem_cons_self _ _))) h9

theorem scanCells_eq_false_of_zero {b : Nat → Nat → Nat} (L : List (Nat × Nat))
    (hle : ∀ p ∈ L, b p.1 p.2 ≤ 9) (hz : ∃ p ∈ L, b p.1 p.2 = 0) :
    scanCells b L = some false := by
  induction L with
  | nil =>
    obtain ⟨p, hp, -⟩ := hz
    cases hp
  | cons q rest ih =>
    obtain ⟨i, j⟩ := q
    rw [scanCells]
    by_cases h0 : b i j = 0
    · rw [if_pos h0]
    · rw [if_neg h0]
      have h9 : b i j ∈ digits :=
        mem_digits.2 ⟨by omega, hle (i, j) (List.mem_cons_self _ _)⟩
      rw [if_pos h9]
      apply ih fun p hp => hle p (List.mem_cons_of_mem _ hp)
      obtain ⟨p, hp, hp0⟩ := hz
      rcases List.mem_cons.1 hp with rfl | hp2
      · exact absurd hp0 h0
      · exact ⟨p, hp2, hp0⟩

theorem eq_Icc_of_subset_of_card {S : Finset Nat} (hsub : S ⊆ Finset.Icc 1 9)
    (hcard : S.card = 9) : S = Finset.Icc 1 9 := by
  apply Finset.eq_of_subset_of_card_le hsub
  rw [hcard]
  decide

theorem rowFinset_subset {b : Nat → Nat → Nat} {i : Nat}
    (h : ∀ j < 9, 1 ≤ b i j ∧ b i j ≤ 9) : rowFinset b i ⊆ Finset.Icc 1 9 := by
  intro v hv
  simp only [rowFinset, List.mem_toFinset, List.mem_map, List.mem_range] at hv
  obtain ⟨j, hj, rfl⟩ := hv
  exact Finset.mem_Icc.2 (h j hj)

theorem colFinset_subset {b : Nat → Nat → Nat} {j : Nat}
    (h : ∀ i < 9, 1 ≤ b i j ∧ b i j ≤ 9) : colFinset b j ⊆ Finset.Icc 1 9 := by
  intro v hv
  simp only [colFinset, List.mem_toFinset, List.mem_map, List.mem_range] at hv
  obtain ⟨i, hi, rfl⟩ := hv
  exact Finset.mem_Icc.2 (h i hi)

theorem boxFinset_subset {b : Nat → Nat → Nat} {k l : Nat}
    (h : ∀ i < 9, ∀ j < 9, 1 ≤ b i j ∧ b i j ≤ 9) (hk : k ≤ 6) (hl : l ≤ 6) :
    boxFinset b k l ⊆ Finset.Icc 1 9 := by
  intro v hv
  simp only [boxFinset, List.mem_toFinset, List.mem_flatMap, List.mem_map,
    List.mem_range] at hv
  obtain ⟨i, ⟨a, ha, rfl⟩, c, hc, rfl⟩ := hv
  exact Finset.mem_Icc.2 (h (k + a) (by omega) (l + c) (by omega))

theorem rowColOk_iff {b : Nat → Nat → Nat}
    (h : ∀ i < 9, ∀ j < 9, 1 ≤ b i j ∧ b i j ≤ 9) :
    rowColOk b = true ↔
      (∀ i < 9, rowFinset b i = Finset.Icc 1 9) ∧
        (∀ j < 9, colFinset b j = Finset.Icc 1 9) := by
  unfold rowColOk
  rw [List.all_eq_true]
  constructor
  · intro hall
    constructor
    · intro i hi
      have hx := hall i (List.mem_range.2 hi)
      simp only [Bool.and_eq_true, decide_eq_true_eq] at hx
      exact eq_Icc_of_subset_of_card (rowFinset_subset (h i hi)) hx.1.1.1
    · intro i hi
      have hx := hall i (List.mem_range.2 hi)
      simp only [Bool.and_eq_true, decide_eq_true_eq] at hx
      exact eq_Icc_of_subset_of_card (colFinset_subset fun k hk => h k hk i hi) hx.1.1.2
  · rintro ⟨hrow, hcol⟩ i hi
    have hi9 := List.mem_range.1 hi
    simp only [Bool.and_eq_true, decide_eq_true_eq]
    have hr : ((List.range 9).map (fun j => b i j)).toFinset = Finset.Icc 1 9 :=
      hrow i hi9
    have hc : ((List.range 9).map (fun j => b j i)).toFinset = Finset.Icc 1 9 :=
      hcol i hi9
    rw [hr, hc]
    exact ⟨⟨⟨by decide, by decide⟩, by decide⟩, by decide⟩

theorem squaresOk_iff {b : Nat → Nat → Nat}
    (h : ∀ i < 9, ∀ j < 9, 1 ≤ b i j ∧ b i j ≤ 9) :
    squaresOk b = true ↔
      ∀ k ∈ ([0, 3, 6] : List Nat), ∀ l ∈ ([0, 3, 6] : List Nat),
        boxFinset b k l = Finset.Icc 1 9 := by
  unfold squaresOk
  rw [List.all_eq_true]
  constructor
  · intro hall k hk l hl
    have h1 := hall k hk
    rw [List.all_eq_true] at h1
    have h2 := h1 l hl
    simp only [Bool.and_eq_true, decide_eq_true_eq] at h2
    have hk6 : k ≤ 6 := by
      simp only [List.mem_cons, List.not_mem_nil, or_false] at hk
      omega
    have hl6 : l ≤ 6 := by
      simp only [List.mem_cons, List.not_mem_nil, or_false] at hl
      omega
    exact eq_Icc_of_subset_of_card (boxFinset_subset h hk6 hl6) h2.1
  · intro hbox k hk
    rw [List.all_eq_true]
    intro l hl
    simp only [Bool.and_eq_true, decide_eq_true_eq]
    have hb : (((List.range 3).map (fun a => k + a)).flatMap
        (fun i => (List.range 3).map (fun c => b i (l + c)))).toFinset
          = Finset.Icc 1 9 := hbox k hk l hl
    rw [hb]
    exact ⟨by decide, by decide⟩

theorem is_on_grid_x12 (s : Sudoku) (y : Int) : s.is_on_grid y 12 = false := by
  cases hb : s.is_on_grid y 12
  · rfl
  · have := (is_on_grid_iff s y 12).1 hb
    omega

theorem is_on_grid_x13 (s : Sudoku) (y : Int) : s.is_on_grid y 13 = false := by
  cases hb : s.is_on_grid y 13
  · rfl
  · have := (is_on_grid_iff s y 13).1 hb
    omega

theorem try_move_fields (s : Sudoku) (y x : Int) (dir : String) :
    (s.try_move y x dir).initial_board = s.initial_board ∧
      (s.try_move y x dir).board = s.board := by
  unfold try_move
  split_ifs <;> exact ⟨rfl, rfl⟩

theorem try_place_parts {s t : Sudoku} {y x : Int} {num : Nat}
    (h : s.try_place y x num = some t) :
    t.initial_board = s.initial_board ∧
      (t.board = s.board ∨
        (s.is_on_grid y x = true ∧
          s.initial_board ((y - 1) - (y / 4)).toNat ((x - 1) - (x / 4)).toNat = 0 ∧
          ¬ conflict s.board ((y - 1) - (y / 4)).toNat ((x - 1) - (x / 4)).toNat num ∧
          t.board = setCell s.board ((y - 1) - (y / 4)).toNat ((x - 1) - (x / 4)).toNat num)) := by
  cases hg : s.is_on_grid y x
  · rw [try_place_off_grid num hg] at h
    cases Option.some.inj h
    exact ⟨rfl, Or.inl rfl⟩
  · rw [try_place_on_grid num hg] at h
    have h2 := Option.some.inj h
    by_cases hinit :
        s.initial_board ((y - 1) - (y / 4)).toNat ((x - 1) - (x / 4)).toNat ≠ 0
    · rw [if_pos hinit] at h2
      cases h2
      exact ⟨rfl, Or.inl rfl⟩
    · rw [if_neg hinit] at h2
      by_cases hc : conflict s.board ((y - 1) - (y / 4)).toNat ((x - 1) - (x / 4)).toNat num
      · rw [if_pos hc] at h2
        cases h2
        exact ⟨rfl, Or.inl rfl⟩
      · rw [if_neg hc] at h2
        cases h2
        exact ⟨rfl, Or.inr ⟨rfl, not_not.mp hinit, hc, rfl⟩⟩

theorem try_del_parts {s t : Sudoku} {y x : Int}
    (h : s.try_del y x = some t) :
    t.initial_board = s.initial_board ∧
      (t.board = s.board ∨
        (s.is_on_grid y x = true ∧
          s.initial_board ((y - 1) - (y / 4)).toNat ((x - 1) - (x / 4)).toNat = 0 ∧
          t.board = setCell s.board ((y - 1) - (y / 4)).toNat ((x - 1) - (x / 4)).toNat 0)) := by
  cases hg : s.is_on_grid y x
  · rw [try_del_off_grid hg] at h
    cases Option.some.inj h
    exact ⟨rfl, Or.inl rfl⟩
  · rw [try_del_on_grid hg] at h
    have h2 := Option.some.inj h
    by_cases hinit :
        s.initial_board ((y - 1) - (y / 4)).toNat ((x - 1) - (x / 4)).toNat ≠ 0
    · rw [if_pos hinit] at h2
      cases h2
      exact ⟨rfl, Or.inl rfl⟩
    · rw [if_neg hinit] at h2
      cases h2
      exact ⟨rfl, Or.inr ⟨rfl, not_not.mp hinit, rfl⟩⟩

theorem applyAction_initial (s : Sudoku) (a : Action) :
    (applyAction s a).initial_board = s.initial_board := by
  cases a with
  | move y x dir => exact (try_move_fields s y x dir).1
  | place y x num =>
    obtain ⟨t, ht⟩ := try_place_total s y x num
    rw [applyAction, ht, Option.getD_some]
    exact (try_place_parts ht).1
  | del y x =>
    obtain ⟨t, ht⟩ := try_del_total s y x
    rw [applyAction, ht, Option.getD_some]
    exact (try_del_parts ht).1

theorem applyAction_given (s : Sudoku) (a : Action) (p q : Nat)
    (hg : s.initial_board p q ≠ 0) : (applyAction s a).board p q = s.board p q := by
  cases a with
  | move y x dir => exact congrFun (congrFun (try_move_fields s y x dir).2 p) q
  | place y x num =>
    obtain ⟨t, ht⟩ := try_place_total s y x num
    rw [applyAction, ht, Option.getD_some]
    rcases (try_place_parts ht).2 with hsame | ⟨-, hfree, -, hset⟩
    · rw [hsame]
    · rw [hset]
      refine setCell_ne _ _ ?_
      rintro ⟨rfl, rfl⟩
      exact hg hfree
  | del y x =>
    obtain ⟨t, ht⟩ := try_del_total s y x
    rw [applyAction, ht, Option.getD_some]
    rcases (try_del_parts ht).2 with hsame | ⟨-, hfree, hset⟩
    · rw [hsame]
    · rw [hset]
      refine setCell_ne _ _ ?_
      rintro ⟨rfl, rfl⟩
      exact hg hfree

theorem run_cons (s : Sudoku) (a : Action) (rest : List Action) :
    run s (a :: rest) = run (applyAction s a) rest := rfl

theorem run_preserves (acts : List Action) (s : Sudoku) (p q : Nat) :
    (run s acts).initial_board = s.initial_board ∧
      (s.initial_board p q ≠ 0 → (run s acts).board p q = s.board p q) := by
  induction acts generalizing s with
  | nil => exact ⟨rfl, fun _ => rfl⟩
  | cons a rest ih =>
    have h1 := applyAction_initial s a
    obtain ⟨ih1, ih2⟩ := ih (applyAction s a)
    constructor
    · rw [run_cons, ih1, h1]
    · intro hg
      rw [run_cons, ih2 (by rw [h1]; exact hg), applyAction_given s a p q hg]

/-- C4: `try_move` moves the cursor to the requested raw neighbor `(y, x)`
when it is on the grid; otherwise it steps one further unit in the direction
of the pressed arrow key and moves there when that position is on the grid;
otherwise the cursor does not move.  In particular, from the rightmost
playable column (x = 11) a right move (requested x = 12) is a no-op: position
12 is a separator and position 13 is outside the grid span. -/
theorem C4_try_move_skips_borders (s : Sudoku) (y x : Int) :
    (s.try_move y x "KEY_UP" =
        if s.is_on_grid y x then { s with cursor := (y, x) }
        else if s.is_on_grid (y - 1) x then { s with cursor := (y - 1, x) }
        else s) ∧
    (s.try_move y x "KEY_DOWN" =
        if s.is_on_grid y x then { s with cursor := (y, x) }
        else if s.is_on_grid (y + 1) x then { s with cursor := (y + 1, x) }
        else s) ∧
    (s.try_move y x "KEY_LEFT" =
        if s.is_on_grid y x then { s with cursor := (y, x) }
        else if s.is_on_grid y (x - 1) then { s with cursor := (y, x - 1) }
        else s) ∧
    (s.try_move y x "KEY_RIGHT" =
        if s.is_on_grid y x then { s with cursor := (y, x) }
        else if s.is_on_grid y (x + 1) then { s with cursor := (y, x + 1) }
        else s) ∧
    s.try_move y 12 "KEY_RIGHT" = s := by
  refine ⟨?_, ?_, ?_, ?_, ?_⟩
  · by_cases hg : s.is_on_grid y x = true
    · unfold try_move; simp [hg]
    · unfold try_move; simp [hg]
  · by_cases hg : s.is_on_grid y x = true
    · unfold try_move; simp [hg]
    · unfold try_move; simp [hg]
  · by_cases hg : s.is_on_grid y x = true
    · unfold try_move; simp [hg]
    · unfold try_move; simp [hg]
  · by_cases hg : s.is_on_grid y x = true
    · unfold try_move; simp [hg]
    · unfold try_move; simp [hg]
  · unfold try_move
    simp [is_on_grid_x12, is_on_grid_x13]

/-- C5: with the viewport at least 11 rows and 13 columns, `is_on_grid` is
exactly the separator-free part of the 13-unit grid span, `yx_to_ij` maps each
on-grid position to `((y-1)-(y//4), (x-1)-(x//4))`, which lands in
`[0,8] × [0,8]`, and applying `i ↦ i + i//3 + 1` to each coordinate is a
two-sided inverse, so the two maps form a bijection between on-grid positions
and logical indices. -/
theorem C5_coordinate_bijection (s : Sudoku) (hh : 11 ≤ s.height) (hw : 13 ≤ s.width) :
    (∀ y x : Int, s.is_on_grid y x = true ↔
        (0 ≤ y ∧ y ≤ 12 ∧ 0 ≤ x ∧ x ≤ 12 ∧ y % 4 ≠ 0 ∧ x % 4 ≠ 0)) ∧
    (∀ y x : Int, s.is_on_grid y x = true →
        s.yx_to_ij y x = some ((y - 1) - (y / 4), (x - 1) - (x / 4)) ∧
        (0 ≤ (y - 1) - (y / 4) ∧ (y - 1) - (y / 4) ≤ 8 ∧
          0 ≤ (x - 1) - (x / 4) ∧ (x - 1) - (x / 4) ≤ 8) ∧
        ((y - 1) - (y / 4)) + ((y - 1) - (y / 4)) / 3 + 1 = y ∧
        ((x - 1) - (x / 4)) + ((x - 1) - (x / 4)) / 3 + 1 = x) ∧
    (∀ i j : Int, 0 ≤ i → i ≤ 8 → 0 ≤ j → j ≤ 8 →
        s.is_on_grid (i + i / 3 + 1) (j + j / 3 + 1) = true ∧
        s.yx_to_ij (i + i / 3 + 1) (j + j / 3 + 1) = some (i, j)) := by
  refine ⟨?_, ?_, ?_⟩
  · intro y x
    rw [is_on_grid_iff]
    unfold is_safe_pos
    simp only [decide_eq_true_eq]
    omega
  · intro y x h
    have hc := on_grid_coord h
    exact ⟨yx_to_ij_on_grid h, by omega, by omega, by omega⟩
  · intro i j hi0 hi8 hj0 hj8
    have hg : s.is_on_grid (i + i / 3 + 1) (j + j / 3 + 1) = true := by
      rw [is_on_grid_iff]
      unfold is_safe_pos
      simp only [decide_eq_true_eq]
      omega
    refine ⟨hg, ?_⟩
    rw [yx_to_ij_on_grid hg]
    have h1 : (i + i / 3 + 1 - 1) - ((i + i / 3 + 1) / 4) = i := by omega
    have h2 : (j + j / 3 + 1 - 1) - ((j + j / 3 + 1) / 4) = j := by omega
    rw [h1, h2]

theorem C5_coordinate_bijection_witness :
    sampleState.is_on_grid 5 6 = true ∧ sampleState.yx_to_ij 5 6 = some (3, 4) :=
  (C5_coordinate_bijection sampleState (by decide) (by decide)).2.2 3 4
    (by decide) (by decide) (by decide) (by decide)

/-- C2: for an on-grid target whose cell `(i, j) = yx_to_ij(y, x)` is not
given, and a digit `d ∈ [1,9]`: if `d` already occurs in row `i`, column `j`,
or the 3×3 box with top-left `(i//3*3, j//3*3)` of the player board, then
`try_place` leaves the state unchanged (silent rejection); if `d` occurs in
none of the three collections, `try_place` sets `board[i][j]` to `d`. -/
theorem C2_try_place_row_col_box (s : Sudoku) (y x : Int) (i j : Int) (d : Nat)
    (hij : s.yx_to_ij y x = some (i, j))
    (hfree : s.initial_board i.toNat j.toNat = 0)
    (hd1 : 1 ≤ d) (hd9 : d ≤ 9) :
    (((∃ l < 9, s.board i.toNat l = d) ∨ (∃ k < 9, s.board k j.toNat = d) ∨
        (∃ a < 3, ∃ c < 3, s.board (i.toNat / 3 * 3 + a) (j.toNat / 3 * 3 + c) = d)) →
      s.try_place y x d = some s) ∧
    (¬ ((∃ l < 9, s.board i.toNat l = d) ∨ (∃ k < 9, s.board k j.toNat = d) ∨
        (∃ a < 3, ∃ c < 3, s.board (i.toNat / 3 * 3 + a) (j.toNat / 3 * 3 + c) = d)) →
      s.try_place y x d =
        some { s with board := setCell s.board i.toNat j.toNat d, cursor := (y, x) }) := by
  have hg := on_grid_of_yx_to_ij hij
  rw [yx_to_ij_on_grid hg] at hij
  obtain ⟨hi, hj⟩ := Prod.mk.inj (Option.some.inj hij)
  subst hi
  subst hj
  constructor
  · intro hspec
    rw [try_place_on_grid d hg, if_neg (by simp [hfree]),
      if_pos ((conflict_iff _ _ _ _).2 hspec)]
  · intro hspec
    rw [try_place_on_grid d hg, if_neg (by simp [hfree]),
      if_neg (fun hc => hspec ((conflict_iff _ _ _ _).1 hc))]

theorem C2_try_place_row_col_box_witness :
    sampleState.try_place 1 2 5 = some sampleState ∧
    sampleState.try_place 1 2 7 =
      some { sampleState with
              board := setCell sampleState.board 0 1 7
              cursor := ((1 : Int), (2 : Int)) } :=
  ⟨(C2_try_place_row_col_box sampleState 1 2 0 1 5 (by decide) (by decide)
      (by decide) (by decide)).1 (Or.inl ⟨0, by decide, by decide⟩),
   (C2_try_place_row_col_box sampleState 1 2 0 1 7 (by decide) (by decide)
      (by decide) (by decide)).2 (by decide)⟩

/-- C6: for an on-grid target whose cell is not given, `try_del` sets the cell
to 0 unconditionally (also when it already was 0); on a given or off-grid
target it leaves the state unchanged. -/
theorem C6_try_del_clears (s : Sudoku) (y x : Int) :
    (s.is_on_grid y x = false → s.try_del y x = some s) ∧
    (∀ i j : Int, s.yx_to_ij y x = some (i, j) →
      (s.initial_board i.toNat j.toNat = 0 →
        s.try_del y x =
          some { s with
                  board := setCell s.board i.toNat j.toNat 0
                  cursor := (y, x) }) ∧
      (s.initial_board i.toNat j.toNat ≠ 0 → s.try_del y x = some s)) := by
  constructor
  · exact try_del_off_grid
  · intro i j hij
    have hg := on_grid_of_yx_to_ij hij
    rw [yx_to_ij_on_grid hg] at hij
    obtain ⟨hi, hj⟩ := Prod.mk.inj (Option.some.inj hij)
    subst hi
    subst hj
    constructor
    · intro hfree
      rw [try_del_on_grid hg, if_neg (by simp [hfree])]
    · intro hgiven
      rw [try_del_on_grid hg, if_pos hgiven]

theorem C6_try_del_clears_witness :
    sampleState.try_del 0 0 = some sampleState ∧
    sampleState.try_del 1 1 = some sampleState ∧
    sampleState.try_del 1 2 =
      some { sampleState with
              board := setCell sampleState.board 0 1 0
              cursor := ((1 : Int), (2 : Int)) } :=
  ⟨(C6_try_del_clears sampleState 0 0).1 (by decide),
   ((C6_try_del_clears sampleState 1 1).2 0 0 (by decide)).2 (by decide),
   ((C6_try_del_clears sampleState 1 2).2 0 1 (by decide)).1 (by decide)⟩

/-- C7: for every integer screen position and every digit value, `try_place`
and `try_del` always return a state (no exception): off grid, `yx_to_ij`
returns the `none` sentinel but it is never dereferenced and both operations
are identity no-ops; on a given target both are no-ops; on a conflicting
digit `try_place` is a no-op. -/
theorem C7_silent_noop_no_exception (s : Sudoku) (y x : Int) (num : Nat) :
    (∃ t, s.try_place y x num = some t) ∧ (∃ t, s.try_del y x = some t) ∧
    (s.is_on_grid y x = false →
      s.yx_to_ij y x = none ∧ s.try_place y x num = some s ∧ s.try_del y x = some s) ∧
    (∀ i j : Int, s.yx_to_ij y x = some (i, j) →
      (s.initial_board i.toNat j.toNat ≠ 0 →
        s.try_place y x num = some s ∧ s.try_del y x = some s) ∧
      (conflict s.board i.toNat j.toNat num → s.try_place y x num = some s)) := by
  refine ⟨try_place_total s y x num, try_del_total s y x, ?_, ?_⟩
  · intro hoff
    exact ⟨yx_to_ij_off_grid hoff, try_place_off_grid num hoff, try_del_off_grid hoff⟩
  · intro i j hij
    have hg := on_grid_of_yx_to_ij hij
    rw [yx_to_ij_on_grid hg] at hij
    obtain ⟨hi, hj⟩ := Prod.mk.inj (Option.some.inj hij)
    subst hi
    subst hj
    constructor
    · intro hgiven
      rw [try_place_on_grid num hg, if_pos hgiven, try_del_on_grid hg, if_pos hgiven]
      exact ⟨rfl, rfl⟩
    · intro hc
      by_cases hgiven :
          s.initial_board ((y - 1) - (y / 4)).toNat ((x - 1) - (x / 4)).toNat ≠ 0
      · rw [try_place_on_grid num hg, if_pos hgiven]
      · rw [try_place_on_grid num hg, if_neg hgiven, if_pos hc]

theorem C7_silent_noop_no_exception_witness :
    sampleState.yx_to_ij 0 5 = none ∧
    sampleState.try_place 0 5 3 = some sampleState ∧
    sampleState.try_del 0 5 = some sampleState ∧
    sampleState.try_place 1 2 5 = some sampleState :=
  ⟨((C7_silent_noop_no_exception sampleState 0 5 3).2.2.1 (by decide)).1,
   ((C7_silent_noop_no_exception sampleState 0 5 3).2.2.1 (by decide)).2.1,
   ((C7_silent_noop_no_exception sampleState 0 5 3).2.2.1 (by decide)).2.2,
   ((C7_silent_noop_no_exception sampleState 1 2 5).2.2.2 0 1 (by decide)).2 (by decide)⟩

/-- C9: `try_place` does not require the target cell to be blank: on a
non-given cell currently holding a non-zero entry, a digit conflicting with
nothing in the cell's row, column or box overwrites the entry directly, with
no prior erase; and placing the digit the cell already contains is always
rejected, because the cell's own value is a member of its row. -/
theorem C9_overwrite_without_erase (s : Sudoku) (y x : Int) (i j : Int) (d : Nat)
    (hij : s.yx_to_ij y x = some (i, j))
    (hfree : s.initial_board i.toNat j.toNat = 0)
    (hcur : s.board i.toNat j.toNat ≠ 0) :
    (¬ conflict s.board i.toNat j.toNat d →
      s.try_place y x d =
        some { s with
                board := setCell s.board i.toNat j.toNat d
                cursor := (y, x) }) ∧
    s.try_place y x (s.board i.toNat j.toNat) = some s := by
  have hg := on_grid_of_yx_to_ij hij
  rw [yx_to_ij_on_grid hg] at hij
  obtain ⟨hi, hj⟩ := Prod.mk.inj (Option.some.inj hij)
  subst hi
  subst hj
  constructor
  · intro hnc
    rw [try_place_on_grid d hg, if_neg (by simp [hfree]), if_neg hnc]
  · have hcf : conflict s.board ((y - 1) - (y / 4)).toNat ((x - 1) - (x / 4)).toNat
        (s.board ((y - 1) - (y / 4)).toNat ((x - 1) - (x / 4)).toNat) := by
      refine (conflict_iff _ _ _ _).2 (Or.inl ⟨((x - 1) - (x / 4)).toNat, ?_, rfl⟩)
      have := ij_range hg
      omega
    rw [try_place_on_grid _ hg, if_neg (by simp [hfree]), if_pos hcf]

theorem C9_overwrite_without_erase_witness :
    halfState.try_place 1 2 7 =
      some { halfState with
              board := setCell halfState.board 0 1 7
              cursor := ((1 : Int), (2 : Int)) } ∧
    halfState.try_place 1 2 3 = some halfState :=
  ⟨(C9_overwrite_without_erase halfState 1 2 0 1 7 (by decide) (by decide)
      (by decide)).1 (by decide),
   (C9_overwrite_without_erase halfState 1 2 0 1 3 (by decide) (by decide)
      (by decide)).2⟩

/-- C8: a single `try_place` or `try_del` call changes at most one player
cell, namely the cell `yx_to_ij` resolves from an on-grid, non-given target;
`try_move` changes no board; and `initial_board` is never modified by any
sequence of operations. -/
theorem C8_single_cell_frame (s : Sudoku) (y x : Int) (dir : String) (num : Nat) :
    ((s.try_move y x dir).board = s.board ∧
      (s.try_move y x dir).initial_board = s.initial_board) ∧
    (∀ t, s.try_place y x num = some t →
      t.initial_board = s.initial_board ∧
      ∀ p q : Nat, t.board p q ≠ s.board p q →
        s.is_on_grid y x = true ∧
        ∃ i j : Int, s.yx_to_ij y x = some (i, j) ∧
          s.initial_board i.toNat j.toNat = 0 ∧ p = i.toNat ∧ q = j.toNat) ∧
    (∀ t, s.try_del y x = some t →
      t.initial_board = s.initial_board ∧
      ∀ p q : Nat, t.board p q ≠ s.board p q →
        s.is_on_grid y x = true ∧
        ∃ i j : Int, s.yx_to_ij y x = some (i, j) ∧
          s.initial_board i.toNat j.toNat = 0 ∧ p = i.toNat ∧ q = j.toNat) ∧
    (∀ acts : List Action, (run s acts).initial_board = s.initial_board) := by
  refine ⟨⟨(try_move_fields s y x dir).2, (try_move_fields s y x dir).1⟩, ?_, ?_, ?_⟩
  · intro t ht
    obtain ⟨hinit, hcase⟩ := try_place_parts ht
    refine ⟨hinit, ?_⟩
    intro p q hne
    rcases hcase with hsame | ⟨hg, hfree, -, hset⟩
    · rw [hsame] at hne
      exact absurd rfl hne
    · refine ⟨hg, (y - 1) - (y / 4), (x - 1) - (x / 4), yx_to_ij_on_grid hg, hfree, ?_⟩
      by_cases hpq : p = ((y - 1) - (y / 4)).toNat ∧ q = ((x - 1) - (x / 4)).toNat
      · exact ⟨hpq.1, hpq.2⟩
      · rw [hset, setCell_ne _ _ hpq] at hne
        exact absurd rfl hne
  · intro t ht
    obtain ⟨hinit, hcase⟩ := try_del_parts ht
    refine ⟨hinit, ?_⟩
    intro p q hne
    rcases hcase with hsame | ⟨hg, hfree, hset⟩
    · rw [hsame] at hne
      exact absurd rfl hne
    · refine ⟨hg, (y - 1) - (y / 4), (x - 1) - (x / 4), yx_to_ij_on_grid hg, hfree, ?_⟩
      by_cases hpq : p = ((y - 1) - (y / 4)).toNat ∧ q = ((x - 1) - (x / 4)).toNat
      · exact ⟨hpq.1, hpq.2⟩
      · rw [hset, setCell_ne _ _ hpq] at hne
        exact absurd rfl hne
  · intro acts
    exact (run_preserves acts s 0 0).1

theorem C8_single_cell_frame_witness :
    (run sampleState [Action.place 1 2 7]).initial_board = sampleState.initial_board ∧
    (sampleState.try_move 2 1 "KEY_UP").board = sampleState.board ∧
    sampleState.is_on_grid 1 2 = true :=
  ⟨(C8_single_cell_frame sampleState 1 2 "KEY_UP" 7).2.2.2 [Action.place 1 2 7],
   (C8_single_cell_frame sampleState 2 1 "KEY_UP" 7).1.1,
   (((C8_single_cell_frame sampleState 1 2 "KEY_UP" 7).2.1
        { sampleState with
           board := setCell sampleState.board 0 1 7
           cursor := ((1 : Int), (2 : Int)) } rfl).2 0 1 (by decide)).1⟩

/-- C1: in every state reachable from game start by any sequence of
`try_move`, `try_place` and `try_del` calls with any arguments, the player
board agrees with the initial board on every given cell, and the initial
board itself is unchanged. -/
theorem C1_given_cells_invariant (ib : Nat → Nat → Nat) (h w : Int)
    (acts : List Action) (i j : Nat) (hi : i ≤ 8) (hj : j ≤ 8)
    (hgiven : ib i j ≠ 0) :
    (run (startState ib h w) acts).board i j = ib i j ∧
    (run (startState ib h w) acts).initial_board = ib := by
  obtain ⟨h1, h2⟩ := run_preserves acts (startState ib h w) i j
  exact ⟨h2 hgiven, h1⟩

theorem C1_given_cells_invariant_witness :
    (run (startState sampleInit 20 40)
        [Action.place 1 1 7, Action.del 1 1, Action.place 1 2 9,
          Action.move 2 1 "KEY_UP"]).board 0 0 = sampleInit 0 0 ∧
    (run (startState sampleInit 20 40)
        [Action.place 1 1 7, Action.del 1 1, Action.place 1 2 9,
          Action.move 2 1 "KEY_UP"]).initial_board = sampleInit :=
  C1_given_cells_invariant sampleInit 20 40
    [Action.place 1 1 7, Action.del 1 1, Action.place 1 2 9,
      Action.move 2 1 "KEY_UP"] 0 0 (by decide) (by decide) (by decide)

/-- C3: assuming every player-board cell lies in [0,9], the deep check
returns `False` whenever some cell is 0, and returns `True` exactly when the
board is full with values in [1,9] and each of the 9 rows, 9 columns and 9
aligned 3×3 boxes carries exactly the value set {1,…,9}. -/
theorem C3_is_completed_correct (s : Sudoku)
    (h9 : ∀ i < 9, ∀ j < 9, s.board i j ≤ 9) :
    ((∃ i < 9, ∃ j < 9, s.board i j = 0) → s.is_completed true = some false) ∧
    (s.is_completed true = some true ↔
      (∀ i < 9, ∀ j < 9, 1 ≤ s.board i j ∧ s.board i j ≤ 9) ∧
      (∀ i < 9, rowFinset s.board i = Finset.Icc 1 9) ∧
      (∀ j < 9, colFinset s.board j = Finset.Icc 1 9) ∧
      (∀ k ∈ ([0, 3, 6] : List Nat), ∀ l ∈ ([0, 3, 6] : List Nat),
        boxFinset s.board k l = Finset.Icc 1 9)) ∧
    ((∀ i < 9, ∀ j < 9, 1 ≤ s.board i j) →
      ¬ ((∀ i < 9, rowFinset s.board i = Finset.Icc 1 9) ∧
         (∀ j < 9, colFinset s.board j = Finset.Icc 1 9) ∧
         (∀ k ∈ ([0, 3, 6] : List Nat), ∀ l ∈ ([0, 3, 6] : List Nat),
           boxFinset s.board k l = Finset.Icc 1 9)) →
      s.is_completed true = some false) := by
  have hle : ∀ p ∈ cellList, s.board p.1 p.2 ≤ 9 := by
    intro p hp
    exact h9 p.1 (mem_cellList.1 hp).1 p.2 (mem_cellList.1 hp).2
  refine ⟨?_, ?_, ?_⟩
  · rintro ⟨i, hi, j, hj, hz⟩
    have hscan : scanCells s.board cellList = some false :=
      scanCells_eq_false_of_zero _ hle ⟨(i, j), mem_cellList.2 ⟨hi, hj⟩, hz⟩
    unfold is_completed
    rw [hscan]
  · constructor
    · intro htrue
      cases hres : scanCells s.board cellList with
      | none =>
        unfold is_completed at htrue
        rw [hres] at htrue
        cases htrue
      | some v =>
        cases v with
        | false =>
          unfold is_completed at htrue
          rw [hres] at htrue
          cases htrue
        | true =>
          have hfull : ∀ i < 9, ∀ j < 9, 1 ≤ s.board i j ∧ s.board i j ≤ 9 := by
            intro i hi j hj
            exact (scanCells_eq_true_iff cellList).1 hres (i, j) (mem_cellList.2 ⟨hi, hj⟩)
          unfold is_completed at htrue
          rw [hres] at htrue
          simp only [if_true, Option.some.injEq, Bool.and_eq_true] at htrue
          exact ⟨hfull, ((rowColOk_iff hfull).1 htrue.1).1,
            ((rowColOk_iff hfull).1 htrue.1).2, (squaresOk_iff hfull).1 htrue.2⟩
    · rintro ⟨hfull, hrow, hcol, hbox⟩
      have hscan : scanCells s.board cellList = some true :=
        (scanCells_eq_true_iff cellList).2 fun p hp =>
          hfull p.1 (mem_cellList.1 hp).1 p.2 (mem_cellList.1 hp).2
      unfold is_completed
      rw [hscan, (rowColOk_iff hfull).2 ⟨hrow, hcol⟩, (squaresOk_iff hfull).2 hbox]
      rfl
  · intro hpos hbad
    have hfull : ∀ i < 9, ∀ j < 9, 1 ≤ s.board i j ∧ s.board i j ≤ 9 :=
      fun i hi j hj => ⟨hpos i hi j hj, h9 i hi j hj⟩
    have hscan : scanCells s.board cellList = some true :=
      (scanCells_eq_true_iff cellList).2 fun p hp =>
        hfull p.1 (mem_cellList.1 hp).1 p.2 (mem_cellList.1 hp).2
    have hff : (rowColOk s.board && squaresOk s.board) = false := by
      cases hrc : rowColOk s.board
      · rfl
      · cases hsq : squaresOk s.board
        · rfl
        · exact absurd ⟨((rowColOk_iff hfull).1 hrc).1, ((rowColOk_iff hfull).1 hrc).2,
            (squaresOk_iff hfull).1 hsq⟩ hbad
    unfold is_completed
    rw [hscan, hff]
    rfl

theorem C3_is_completed_correct_witness :
    solvedState.is_completed true = some true :=
  (C3_is_completed_correct solvedState (by decide)).2.1.mpr
    ⟨by decide, by decide, by decide, by decide⟩

/-- C10: provided every player-board cell lies in [0,9], the assertion
`assert self.board[i][j] in digits` inside `is_completed` never fails —
every value reaching it is non-zero, hence in [1,9] — and `is_completed`
returns a boolean for both `deep_check` values. -/
theorem C10_assert_never_fires (s : Sudoku)
    (h9 : ∀ i < 9, ∀ j < 9, s.board i j ≤ 9) :
    (s.is_completed true).isSome ∧ (s.is_completed false).isSome := by
  have hscan : scanCells s.board cellList ≠ none :=
    scanCells_ne_none _ fun p hp =>
      h9 p.1 (mem_cellList.1 hp).1 p.2 (mem_cellList.1 hp).2
  constructor <;>
    · unfold is_completed
      cases hres : scanCells s.board cellList with
      | none => exact absurd hres hscan
      | some b => cases b <;> simp

theorem C10_assert_never_fires_witness :
    (sampleState.is_completed true).isSome ∧ (sampleState.is_completed false).isSome :=
  C10_assert_never_fires sampleState (by decide)

end Sudoku
